import Mathlib

/-!
Shallow embedding of the LangGraph EdTech investment-pipeline repository.

Conventions of the embedding:
* Python floats are modelled as exact rationals.  Every concrete number used in
  a theorem below is chosen so that the double-precision computation in the
  source and the exact rational computation agree (sums of dyadic rationals,
  or values far from a rounding boundary), so no claim rests on float epsilon.
* LLM / web-search collaborators are modelled as explicit inputs: a reply is a
  value of type `Except e String` (`error` = the Python call raised), and the
  regex score parser `extract_score` (which the spec treats as part of the
  scoring collaborator, not the engine) is modelled as a supplied parse
  outcome.
* Python `int(x)` truncates toward zero; Python `round` rounds half to even.
-/

/-- Python `int()` applied to a real value: truncation toward zero. -/
def pyInt (q : ℚ) : ℤ := if q < 0 then ⌈q⌉ else ⌊q⌋

/-- Python `x in s` substring test, on the character lists of the strings:
auxiliary prefix test. -/
def charsStartWith : List Char → List Char → Bool
  | [], _ => true
  | _ :: _, [] => false
  | p :: ps, c :: cs => p == c && charsStartWith ps cs

/-- Python `pat in s` substring containment over character lists. -/
def charsContain (pat : List Char) : List Char → Bool
  | [] => charsStartWith pat []
  | c :: cs => charsStartWith pat (c :: cs) || charsContain pat cs

/-- Python `pat in s` on strings. -/
def pyIn (pat s : String) : Bool := charsContain pat.toList s.toList

/-- Python `s.strip()`: drop leading and trailing whitespace. -/
def pyStrip (s : String) : String :=
  ⟨((s.toList.dropWhile Char.isWhitespace).reverse.dropWhile Char.isWhitespace).reverse⟩

/-- Python `s.lower()` (ASCII case folding, which is all the source compares). -/
def pyLower (s : String) : String := ⟨s.toList.map Char.toLower⟩

/-! ## src/agents/evaluation.py — comprehensive_judge_agent (lines 438-510)

Five category scores (no risk category in this variant); weights
tech 0.25, learning 0.20, market 0.25, competition 0.15, growth 0.15. -/

/-- The five category scores read from InvestmentState in
evaluation.py comprehensive_judge_agent. -/
structure Scores5 where
  technology : ℤ
  learning : ℤ
  market : ℤ
  competition : ℤ
  growth : ℤ
deriving DecidableEq

/-- evaluation.py line 458-464: the weighted sum before `int()` is applied. -/
def evaluationWeightedSum (s : Scores5) : ℚ :=
  (s.technology : ℚ) * 0.25 + (s.learning : ℚ) * 0.20 + (s.market : ℚ) * 0.25 +
    (s.competition : ℚ) * 0.15 + (s.growth : ℚ) * 0.15

/-- evaluation.py line 458: `total_score = int(tech*0.25 + ... + growth*0.15)`. -/
def evaluation_total_score (s : Scores5) : ℤ := pyInt (evaluationWeightedSum s)

/-- The list of weights configured in evaluation.py comprehensive_judge_agent. -/
def evaluation_weights : List ℚ := [0.25, 0.20, 0.25, 0.15, 0.15]

/-- evaluation.py lines 500-503:
`decision = "보류"; if total_score >= 70 and all(s >= 50 for s in [...]): decision = "투자"`. -/
def evaluation_investment_decision (s : Scores5) : String :=
  if 70 ≤ evaluation_total_score s ∧
      50 ≤ s.technology ∧ 50 ≤ s.learning ∧ 50 ≤ s.market ∧
      50 ≤ s.competition ∧ 50 ≤ s.growth then
    "투자"
  else "보류"

/-- evaluation.py comprehensive_judge_agent as a state update: it writes
`total_score`, `investment_decision` and `decision_reasoning`, where the
reasoning text is the LLM reply (`response.content`) and the decision is the
numeric rule above — the reply text is stored but never consulted for the
decision. -/
def evaluation_comprehensive_judge_agent (s : Scores5) (responseContent : String) :
    ℤ × String × String :=
  (evaluation_total_score s, evaluation_investment_decision s, responseContent)

/-! ## src/agents/judge_agent.py — comprehensive_judge_agent (lines 9-81)

Six category scores including risk; weights tech 0.20, learning 0.20,
market 0.25, competition 0.15, growth 0.10, risk 0.10.  Here the decision is
extracted from the LLM reply text, not recomputed from the scores. -/

/-- The six category scores read from AgentState in judge_agent.py. -/
structure Scores6 where
  technology : ℤ
  learning : ℤ
  market : ℤ
  competition : ℤ
  growth : ℤ
  risk : ℤ
deriving DecidableEq

/-- judge_agent.py lines 31-38: the weighted sum before `int()` is applied. -/
def judgeWeightedSum (s : Scores6) : ℚ :=
  (s.technology : ℚ) * 0.20 + (s.learning : ℚ) * 0.20 + (s.market : ℚ) * 0.25 +
    (s.competition : ℚ) * 0.15 + (s.growth : ℚ) * 0.10 + (s.risk : ℚ) * 0.10

/-- judge_agent.py line 31: `total_score = int(...)`. -/
def judge_total_score (s : Scores6) : ℤ := pyInt (judgeWeightedSum s)

/-- The list of weights configured in judge_agent.py comprehensive_judge_agent. -/
def judge_weights : List ℚ := [0.20, 0.20, 0.25, 0.15, 0.10, 0.10]

/-- The risk weight from judge_agent.py (`"risk": 0.10`). -/
def judge_risk_weight : ℚ := 0.10

/-- judge_agent.py lines 73-74:
`decision_text = response.content.strip()`;
`decision = "투자" if "투자" in decision_text and "보류" not in decision_text else "보류"`.
The scores only feed the prompt; the returned decision is a function of the
reply text alone. -/
def judge_final_decision (s : Scores6) (responseContent : String) : String :=
  let _total := judge_total_score s
  let decision_text := pyStrip responseContent
  if pyIn "투자" decision_text && !(pyIn "보류" decision_text) then "투자" else "보류"

/-! ## src/main.py — ranked pool, selector and graph (lines 313-576)

An entry of `ranked_evaluations`: main.py stores a dict per candidate with
`startup_name`, `total_score` and (for failed retrieval/evaluation) an
`error` value.  `error : Bool` models the Python truthiness test
`selected_startup_details.get("error")`. -/

structure EvalEntry where
  startup_name : String
  total_score : ℤ
  error : Bool
deriving DecidableEq

/-- main.py line 376: the skip condition of node_select_ranked_startup,
`if selected_startup_details.get("error") or selected_startup_details.get("total_score", 0) <= 0`. -/
def skipEntry (e : EvalEntry) : Bool := e.error || decide (e.total_score ≤ 0)

/-- The `while current_index < len(ranked_list)` loop of
node_select_ranked_startup (main.py lines 373-389), phrased over the list of
entries not yet examined together with the absolute index `i`. -/
def selectLoop : List EvalEntry → Nat → Option EvalEntry × Nat
  | [], i => (none, i)
  | e :: rest, i =>
    if skipEntry e then selectLoop rest (i + 1) else (some e, i + 1)

/-- main.py lines 367-389: node_select_ranked_startup.  Returns the update it
writes into the state: `current_startup_details` and `current_rank_index`. -/
def node_select_ranked_startup (ranked : List EvalEntry) (i : Nat) :
    Option EvalEntry × Nat :=
  selectLoop (ranked.drop i) i

/-- The node names of the graph built by build_graph (main.py lines 495-565).
`END` stands for the LangGraph END sentinel. -/
inductive Node
  | Agent_A_Generate_List
  | Evaluate_All_And_Rank
  | Select_Ranked_Startup
  | Agent_B_Validate
  | Agent_C_Validate
  | Agent_D_Validate
  | Agent_E_Validate
  | Agent_F_Validate
  | Agent_G_Validate
  | Agent_H_Validate
  | Report_Success
  | END
deriving DecidableEq

/-- main.py lines 527-532: router_after_select combined with its conditional
edge map: a `None` current_startup_details routes to END, otherwise to
Agent_B_Validate. -/
def router_after_select (details : Option EvalEntry) : Node :=
  if details.isSome then Node.Agent_B_Validate else Node.END

/-- main.py lines 535-536: router_after_validation. -/
def router_after_validation (last_decision : String) : String :=
  if last_decision = "continue" then "proceed" else "reject_and_select_new"

/-- The `"proceed"` target of each validation node's conditional edges
(main.py lines 538-559); `none` for nodes that are not validation agents. -/
def validationSuccessor : Node → Option Node
  | Node.Agent_B_Validate => some Node.Agent_C_Validate
  | Node.Agent_C_Validate => some Node.Agent_D_Validate
  | Node.Agent_D_Validate => some Node.Agent_E_Validate
  | Node.Agent_E_Validate => some Node.Agent_F_Validate
  | Node.Agent_F_Validate => some Node.Agent_G_Validate
  | Node.Agent_G_Validate => some Node.Agent_H_Validate
  | Node.Agent_H_Validate => some Node.Report_Success
  | _ => none

/-- One routing step after a validation node `n` produced `last_decision`:
`"proceed"` goes to the declared successor, `"reject_and_select_new"` goes
back to Select_Ranked_Startup.  `none` when `n` is not a validation node. -/
def nextAfterValidation (n : Node) (last_decision : String) : Option Node :=
  match validationSuccessor n with
  | none => none
  | some nxt =>
    some (if router_after_validation last_decision = "proceed" then nxt
          else Node.Select_Ranked_Startup)

/-- Run the validation chain from node `n`, consuming one agent decision per
validation node, stopping at the first non-validation node reached. -/
def runChain : Node → List String → Node
  | n, [] => n
  | n, d :: ds =>
    match nextAfterValidation n d with
    | none => n
    | some n' => runChain n' ds

/-- The nodes entered (in order) while running the validation chain from `n`. -/
def chainTrace : Node → List String → List Node
  | _, [] => []
  | n, d :: ds =>
    match nextAfterValidation n d with
    | none => []
    | some n' => n' :: chainTrace n' ds

/-- main.py line 576: `app.invoke(init_state, config={"recursion_limit": 200})`. -/
def recursion_limit : Nat := 200

/-! ## src/main.py — run_validation_agent (lines 405-440)

The LLM collaborator is modelled as the sequence of outcomes of the up to
three `llm.invoke` attempts: `replies k = none` means attempt `k` raised an
exception, `replies k = some content` means it returned `content`. -/

/-- The `for _ in range(3)` retry loop of run_validation_agent: an exception
(`none`) moves on to the next attempt; the first returned content is
stripped, lowercased and compared against `"pass"`/`"fail"`; any other text
returns `"reject"` at once; exhausting the attempts returns `"reject"`. -/
def validationAttempts : List (Option String) → String
  | [] => "reject"
  | none :: rest => validationAttempts rest
  | some content :: _ =>
    let response := pyLower (pyStrip content)
    if response = "pass" ∨ response = "fail" then
      if response = "pass" then "continue" else "reject"
    else "reject"

/-- main.py lines 405-440: run_validation_agent.  A missing candidate record
returns `"reject"` before any attempt is made. -/
def run_validation_agent (startup_details : Option EvalEntry)
    (replies : Nat → Option String) : String :=
  if startup_details.isNone then "reject"
  else validationAttempts [replies 0, replies 1, replies 2]

/-! ## src/agents/base.py get_web_context, evaluation.py technology_agent,
risk_agent.py risk_agent

Collaborator outcomes are explicit inputs; `Except.error` models a raised
exception.  The regex parser `extract_score` is part of the scoring
collaborator per the spec, so its outcome is a parameter. -/

/-- base.py / evaluation.py get_web_context: each of the two search calls is
wrapped in `try: ... except: pass`, so a raised exception just contributes no
context block; with no blocks the function returns the marker string.  An
item is a (title, url) pair. -/
def get_web_context (tavilyItems naverItems : Except Unit (List (String × String))) :
    String :=
  let tavilyBlock :=
    match tavilyItems with
    | Except.error _ => []
    | Except.ok items =>
      if items.isEmpty then []
      else ["[Tavily 검색]\n" ++
        String.intercalate "\n" (items.map (fun it => "- " ++ it.1 ++ " (" ++ it.2 ++ ")"))]
  let naverBlock :=
    match naverItems with
    | Except.error _ => []
    | Except.ok items =>
      if items.isEmpty then []
      else ["[Naver 뉴스]\n" ++
        String.intercalate "\n" (items.map (fun it => "- " ++ it.1 ++ " (" ++ it.2 ++ ")"))]
  let contexts := tavilyBlock ++ naverBlock
  if contexts.isEmpty then "검색 결과 없음" else String.intercalate "\n\n" contexts

/-- evaluation.py lines 200-238: technology_agent.  The body has no
try/except of its own: `(prompt | llm).invoke(...)` is called bare, so a
raised scoring-collaborator exception propagates out of the stage (modelled
by the `Except` bind).  On success the stage writes
`technology_score := extract_score(analysis)` and
`technology_evidence := analysis`. -/
def technology_agent (_startup_name _context : String)
    (llmResult : Except String String) (extract : String → ℤ) :
    Except String (ℤ × String) :=
  match llmResult with
  | Except.error e => Except.error e
  | Except.ok analysis => Except.ok (extract analysis, analysis)

/-- risk_agent.py lines 12-24: _safe_extract_total_score.  The parse outcome
is `error` when `extract_score` raised, `ok none` when it returned `None`,
`ok (some s)` otherwise; the score is clamped into 0..100. -/
def safe_extract_total_score (parseResult : Except Unit (Option ℤ)) (default : ℤ) : ℤ :=
  match parseResult with
  | Except.error _ => default
  | Except.ok none => default
  | Except.ok (some s0) =>
    let s1 := if s0 < 0 then 0 else s0
    if 100 < s1 then 100 else s1

/-- Python `round(k / 10)` for an integer `k`: round half to even.  For
`0 ≤ k ≤ 100` the double `k / 10` is either an exactly representable
multiple of 0.5 or lies far from a rounding boundary, so the exact-rational
model agrees with the float computation. -/
def pyRoundDiv10 (k : ℤ) : ℤ :=
  let q := k / 10
  let r := k % 10
  if r < 5 then q
  else if 5 < r then q + 1
  else if q % 2 = 0 then q else q + 1

/-- risk_agent.py lines 26-87: risk_agent.  The whole collaborator call is
wrapped in try/except: an exception yields the conservative fallback
`risk_score = 3`; otherwise `score100 = _safe_extract_total_score(analysis)`
(default 60) and `risk_score = round(score100 / 10)`. -/
def risk_agent (llmResult : Except String String)
    (parse : String → Except Unit (Option ℤ)) : ℤ :=
  match llmResult with
  | Except.error _ => 3
  | Except.ok analysis =>
    let score100 := safe_extract_total_score (parse analysis) 60
    pyRoundDiv10 score100

/-! ## src/main.py node_evaluate_all_and_rank (lines 313-365) and
src/select_and_evaluate.py ranked CSV (lines 316-354)

The per-candidate evaluation outcome is `none` when context retrieval or the
AI evaluation failed (main.py lines 328-340 append an error record with
total_score 0), and `some scores` (the six category scores) on success, where
`total_score` is their sum. -/

/-- Build one pool entry from a candidate's evaluation outcome
(main.py lines 324-340). -/
def evalRecordOf : String × Option (List ℤ) → EvalEntry
  | (name, none) => ⟨name, 0, true⟩
  | (name, some scores) => ⟨name, scores.sum, false⟩

/-- The comparison passed to the stable sort: Python
`sorted(all_evaluations, key=lambda x: x.get("total_score", 0), reverse=True)`
is a stable descending sort, i.e. mergeSort keeping the left element whenever
its score is at least the right one's. -/
def rankLE (a b : EvalEntry) : Bool := decide (b.total_score ≤ a.total_score)

/-- main.py lines 343-344 / select_and_evaluate.py line 324: the stable
descending sort of the evaluation pool. -/
def sortRankedDesc (l : List EvalEntry) : List EvalEntry := l.mergeSort rankLE

/-- main.py lines 313-365: node_evaluate_all_and_rank returns the sorted pool
and resets the cursor to 0. -/
def node_evaluate_all_and_rank (outcomes : List (String × Option (List ℤ))) :
    List EvalEntry × Nat :=
  (sortRankedDesc (outcomes.map evalRecordOf), 0)

/-- main.py lines 347-359: the rows of the ranked CSV — one row per entry of
the sorted pool, errored entries included. -/
def main_csv_rows (sorted : List EvalEntry) : List (String × ℤ × Bool) :=
  sorted.map (fun it => (it.startup_name, it.total_score, it.error))

/-- select_and_evaluate.py lines 327-330: the rows of its ranked CSV —
`for item in sorted_evaluations if "error" not in item`, so errored entries
are dropped. -/
def se_ranked_data (sorted : List EvalEntry) : List (String × ℤ) :=
  (sorted.filter (fun it => !it.error)).map (fun it => (it.startup_name, it.total_score))

/-! ## evaluation.py build_agent_workflow (lines 605-629): the sequential
topology of the single-candidate pipeline. -/

/-- evaluation.py line 620: `workflow.set_entry_point("technology")`. -/
def workflow_entry : String := "technology"

/-- evaluation.py lines 621-627: the `add_edge` successor map of the
sequential workflow; `"report"` has an edge to END (`none` here). -/
def workflow_next : String → Option String
  | "technology" => some "learning"
  | "learning" => some "market"
  | "market" => some "competition"
  | "competition" => some "growth"
  | "growth" => some "judge"
  | "judge" => some "report"
  | _ => none

/-- One pass of the select → validate → reject → select retry loop of the
graph, counting how many candidates are handed to the validation chain before
the run ends (a candidate is accepted, or the pool is exhausted and the graph
routes to END).  `accept e` stands for the outcome of the whole validation
chain on candidate `e`.  The loop is phrased as a structural walk over the
pool behind the cursor — skipped entries are passed over inside one selector
execution, each selected entry is handed to the chain once; the theorem
`retrySelections_step` below proves this walk satisfies exactly the loop
equation of the graph. -/
def retryLoopAux (accept : EvalEntry → Bool) : List EvalEntry → ℕ
  | [] => 0
  | e :: rest =>
    if skipEntry e then retryLoopAux accept rest
    else if accept e then 1 else 1 + retryLoopAux accept rest

/-- The number of selections the retry loop performs from cursor `i`. -/
def retrySelections (ranked : List EvalEntry) (accept : EvalEntry → Bool) (i : ℕ) : ℕ :=
  retryLoopAux accept (ranked.drop i)

/-! ## Helper lemmas about the selector loop. -/

/-- Characterization of a successful pass of the selector loop: the returned
entry is the first non-skipped one, at relative position `k`, and the cursor
ends just past it. -/
theorem selectLoop_some_spec :
    ∀ (l : List EvalEntry) (i : ℕ) (e : EvalEntry) (j : ℕ),
      selectLoop l i = (some e, j) →
      ∃ k, k < l.length ∧ l[k]? = some e ∧ skipEntry e = false ∧ j = i + k + 1 ∧
        ∀ m, m < k → ∀ x, l[m]? = some x → skipEntry x = true
  | [], i, e, j, h => by simp [selectLoop] at h
  | a :: rest, i, e, j, h => by
    by_cases hs : skipEntry a
    · rw [selectLoop, if_pos hs] at h
      obtain ⟨k, hk, hget, hsk, hj, hmin⟩ := selectLoop_some_spec rest (i + 1) e j h
      refine ⟨k + 1, by simpa using hk, by simpa using hget, hsk, by omega, ?_⟩
      intro m hm x hx
      cases m with
      | zero =>
        simp only [List.getElem?_cons_zero, Option.some.injEq] at hx
        simpa [← hx] using hs
      | succ m' =>
        exact hmin m' (by omega) x (by simpa using hx)
    · rw [selectLoop, if_neg hs] at h
      simp only [Prod.mk.injEq, Option.some.injEq] at h
      obtain ⟨he, hj⟩ := h
      subst he
      exact ⟨0, by simp, by simp, by simpa using hs, by omega, by omega⟩

/-- Characterization of an exhausted pass of the selector loop: every entry
was skipped and the cursor advanced past the whole list. -/
theorem selectLoop_none_spec :
    ∀ (l : List EvalEntry) (i : ℕ) (j : ℕ),
      selectLoop l i = (none, j) →
      j = i + l.length ∧ ∀ (m : ℕ) (x : EvalEntry), l[m]? = some x → skipEntry x = true
  | [], i, j, h => by
    simp only [selectLoop, Prod.mk.injEq] at h
    obtain ⟨-, hij⟩ := h
    exact ⟨by simp [hij], by simp⟩
  | a :: rest, i, j, h => by
    by_cases hs : skipEntry a
    · rw [selectLoop, if_pos hs] at h
      obtain ⟨hj, hall⟩ := selectLoop_none_spec rest (i + 1) j h
      refine ⟨by simp; omega, ?_⟩
      intro m x hx
      cases m with
      | zero =>
        simp only [List.getElem?_cons_zero, Option.some.injEq] at hx
        simpa [← hx] using hs
      | succ m' => exact hall m' x (by simpa using hx)
    · rw [selectLoop, if_neg hs] at h
      simp at h

/-- Absolute-index characterization of a successful selection. -/
theorem node_select_some_spec (ranked : List EvalEntry) (i : ℕ) (e : EvalEntry) (j : ℕ)
    (h : node_select_ranked_startup ranked i = (some e, j)) :
    ∃ k, i ≤ k ∧ k < ranked.length ∧ ranked[k]? = some e ∧ skipEntry e = false ∧
      j = k + 1 ∧ ∀ m, i ≤ m → m < k → ∀ x, ranked[m]? = some x → skipEntry x = true := by
  obtain ⟨k, hk, hget, hsk, hj, hmin⟩ := selectLoop_some_spec _ _ _ _ h
  rw [List.length_drop] at hk
  refine ⟨i + k, by omega, by omega, ?_, hsk, by omega, ?_⟩
  · rw [← List.getElem?_drop]; exact hget
  · intro m him hmk x hx
    refine hmin (m - i) (by omega) x ?_
    rw [List.getElem?_drop]
    have : i + (m - i) = m := by omega
    rw [this]; exact hx

/-- Absolute-index characterization of an exhausted selection pass. -/
theorem node_select_none_spec (ranked : List EvalEntry) (i : ℕ) (j : ℕ)
    (h : node_select_ranked_startup ranked i = (none, j)) :
    j = max i ranked.length ∧
      ∀ m, i ≤ m → ∀ x, ranked[m]? = some x → skipEntry x = true := by
  obtain ⟨hj, hall⟩ := selectLoop_none_spec _ _ _ h
  rw [List.length_drop] at hj
  refine ⟨by omega, ?_⟩
  intro m him x hx
  refine hall (m - i) x ?_
  rw [List.getElem?_drop]
  have : i + (m - i) = m := by omega
  rw [this]; exact hx

/-- Bounds used for the termination of the retry loop. -/
theorem node_select_some_bounds (ranked : List EvalEntry) (i : ℕ) (e : EvalEntry) (j : ℕ)
    (h : node_select_ranked_startup ranked i = (some e, j)) :
    i < j ∧ j ≤ ranked.length ∧ i < ranked.length := by
  obtain ⟨k, hik, hk, -, -, hj, -⟩ := node_select_some_spec ranked i e j h
  omega

/-- A node with no validation successor ends the chain run immediately. -/
theorem runChain_stop (n : Node) (h : validationSuccessor n = none) :
    ∀ ds, runChain n ds = n := by
  intro ds
  cases ds with
  | nil => rfl
  | cons d ds' => simp [runChain, nextAfterValidation, h]

/-- A node with no validation successor contributes no trace. -/
theorem chainTrace_stop (n : Node) (h : validationSuccessor n = none) :
    ∀ ds, chainTrace n ds = [] := by
  intro ds
  cases ds with
  | nil => rfl
  | cons d ds' => simp [chainTrace, nextAfterValidation, h]

/-- After a `"reject"` decision at any validation node, control goes straight
back to the selector and no further node of the chain is entered. -/
theorem runChain_reject (v n' : Node) (h : validationSuccessor v = some n')
    (ds : List String) :
    runChain v ("reject" :: ds) = Node.Select_Ranked_Startup ∧
      chainTrace v ("reject" :: ds) = [Node.Select_Ranked_Startup] := by
  have hnext : nextAfterValidation v "reject" = some Node.Select_Ranked_Startup := by
    simp [nextAfterValidation, h, router_after_validation]
  constructor
  · simp only [runChain, hnext]
    exact runChain_stop Node.Select_Ranked_Startup rfl ds
  · simp only [chainTrace, hnext]
    rw [chainTrace_stop Node.Select_Ranked_Startup rfl ds]

/-- Induction step for the reach-Report characterization. -/
theorem reach_step (v n' : Node) (m : ℕ) (h : validationSuccessor v = some n')
    (ih : ∀ ds, runChain n' ds = Node.Report_Success ↔
      ∃ rest, ds = List.replicate m "continue" ++ rest) :
    ∀ ds, runChain v ds = Node.Report_Success ↔
      ∃ rest, ds = List.replicate (m + 1) "continue" ++ rest := by
  have hvne : v ≠ Node.Report_Success := by
    intro hv; rw [hv] at h; simp [validationSuccessor] at h
  intro ds
  cases ds with
  | nil =>
    simp only [runChain]
    constructor
    · intro hc; exact absurd hc hvne
    · rintro ⟨rest, hrest⟩
      have hlen := congrArg List.length hrest
      simp at hlen
      omega
  | cons d ds' =>
    by_cases hd : d = "continue"
    · subst hd
      have hnext : nextAfterValidation v "continue" = some n' := by
        simp [nextAfterValidation, h, router_after_validation]
      simp only [runChain, hnext]
      rw [ih ds']
      constructor
      · rintro ⟨rest, hrest⟩
        exact ⟨rest, by simp [List.replicate_succ, hrest]⟩
      · rintro ⟨rest, hrest⟩
        refine ⟨rest, ?_⟩
        rw [List.replicate_succ] at hrest
        simpa using hrest
    · have hnext : nextAfterValidation v d = some Node.Select_Ranked_Startup := by
        simp [nextAfterValidation, h, router_after_validation, hd]
      simp only [runChain, hnext]
      rw [runChain_stop Node.Select_Ranked_Startup rfl ds']
      constructor
      · intro hc; simp at hc
      · rintro ⟨rest, hrest⟩
        rw [List.replicate_succ] at hrest
        simp only [List.cons_append, List.cons.injEq] at hrest
        exact absurd hrest.1 hd

/-- Reaching Report_Success from Agent_B_Validate needs exactly seven
`"continue"` decisions in a row. -/
theorem chainB_reaches_report :
    ∀ ds, runChain Node.Agent_B_Validate ds = Node.Report_Success ↔
      ∃ rest, ds = List.replicate 7 "continue" ++ rest := by
  have h0 : ∀ ds, runChain Node.Report_Success ds = Node.Report_Success ↔
      ∃ rest, ds = List.replicate 0 "continue" ++ rest := by
    intro ds
    rw [runChain_stop Node.Report_Success rfl ds]
    simp
  have hH := reach_step Node.Agent_H_Validate Node.Report_Success 0 rfl h0
  have hG := reach_step Node.Agent_G_Validate Node.Agent_H_Validate 1 rfl hH
  have hF := reach_step Node.Agent_F_Validate Node.Agent_G_Validate 2 rfl hG
  have hE := reach_step Node.Agent_E_Validate Node.Agent_F_Validate 3 rfl hF
  have hD := reach_step Node.Agent_D_Validate Node.Agent_E_Validate 4 rfl hE
  have hC := reach_step Node.Agent_C_Validate Node.Agent_D_Validate 5 rfl hD
  exact reach_step Node.Agent_B_Validate Node.Agent_C_Validate 6 rfl hC

/-- Every pass of the selector that still has entries to examine strictly
advances the cursor. -/
theorem node_select_advances (ranked : List EvalEntry) (i : ℕ)
    (h : i < ranked.length) : i < (node_select_ranked_startup ranked i).2 := by
  rcases hs : node_select_ranked_startup ranked i with ⟨r, j⟩
  cases r with
  | none =>
    obtain ⟨hj, -⟩ := node_select_none_spec ranked i j hs
    simp; omega
  | some e =>
    have := node_select_some_bounds ranked i e j hs
    simp; omega

/-- The walk counts at most one selection per pool entry. -/
theorem retryLoopAux_le (accept : EvalEntry → Bool) :
    ∀ l : List EvalEntry, retryLoopAux accept l ≤ l.length
  | [] => Nat.le_refl 0
  | e :: rest => by
    rw [retryLoopAux]
    have hrec := retryLoopAux_le accept rest
    simp only [List.length_cons]
    split
    · omega
    · split <;> omega

/-- The retry loop hands at most `ranked.length - i` candidates to the
validation chain. -/
theorem retrySelections_le (ranked : List EvalEntry) (accept : EvalEntry → Bool)
    (i : ℕ) : retrySelections ranked accept i ≤ ranked.length - i := by
  have h := retryLoopAux_le accept (ranked.drop i)
  rwa [List.length_drop] at h

/-- An exhausted selection pass means the walk makes no selection at all. -/
theorem retryLoopAux_of_none (accept : EvalEntry → Bool) :
    ∀ (l : List EvalEntry) (i j : ℕ), selectLoop l i = (none, j) →
      retryLoopAux accept l = 0
  | [], _, _, _ => rfl
  | e :: rest, i, j, h => by
    by_cases hs : skipEntry e
    · rw [selectLoop, if_pos hs] at h
      rw [retryLoopAux, if_pos hs]
      exact retryLoopAux_of_none accept rest (i + 1) j h
    · rw [selectLoop, if_neg hs] at h
      simp at h

/-- A successful selection pass makes the walk count that selection and, on
rejection, resume behind the advanced cursor. -/
theorem retryLoopAux_of_some (accept : EvalEntry → Bool) :
    ∀ (l : List EvalEntry) (i : ℕ) (e : EvalEntry) (j : ℕ),
      selectLoop l i = (some e, j) →
      retryLoopAux accept l =
        if accept e then 1 else 1 + retryLoopAux accept (l.drop (j - i))
  | [], i, e, j, h => by simp [selectLoop] at h
  | a :: rest, i, e, j, h => by
    by_cases hs : skipEntry a
    · rw [selectLoop, if_pos hs] at h
      obtain ⟨k, -, -, -, hj, -⟩ := selectLoop_some_spec rest (i + 1) e j h
      have hrec := retryLoopAux_of_some accept rest (i + 1) e j h
      rw [retryLoopAux, if_pos hs, hrec]
      obtain ⟨m, hm⟩ : ∃ m, j - i = m + 1 := ⟨j - i - 1, by omega⟩
      rw [hm, List.drop_succ_cons]
      have hm2 : j - (i + 1) = m := by omega
      rw [hm2]
    · rw [selectLoop, if_neg hs] at h
      simp only [Prod.mk.injEq, Option.some.injEq] at h
      obtain ⟨he, hj⟩ := h
      subst he
      rw [retryLoopAux, if_neg hs]
      have hji : j - i = 1 := by omega
      rw [hji, List.drop_succ_cons, List.drop_zero]

/-- The structural walk satisfies exactly the loop equation of the graph:
run the selector at the cursor; on exhaustion stop, otherwise hand the
candidate to the chain and, if rejected, re-enter the selector at the
advanced cursor. -/
theorem retrySelections_step (ranked : List EvalEntry) (accept : EvalEntry → Bool)
    (i : ℕ) :
    retrySelections ranked accept i =
      match node_select_ranked_startup ranked i with
      | (none, _) => 0
      | (some e, j) => if accept e then 1 else 1 + retrySelections ranked accept j := by
  rcases hsel : node_select_ranked_startup ranked i with ⟨r, j⟩
  cases r with
  | none =>
    exact retryLoopAux_of_none accept (ranked.drop i) i j hsel
  | some e =>
    have hb := node_select_some_bounds ranked i e j hsel
    have h := retryLoopAux_of_some accept (ranked.drop i) i e j hsel
    rw [retrySelections, h, List.drop_drop]
    have hij : i + (j - i) = j := by omega
    rw [hij]
    rfl

/-- Range of the clamped risk total. -/
theorem safe_extract_range (p : Except Unit (Option ℤ)) :
    0 ≤ safe_extract_total_score p 60 ∧ safe_extract_total_score p 60 ≤ 100 := by
  rcases p with e | o
  · norm_num [safe_extract_total_score]
  · rcases o with - | s0
    · norm_num [safe_extract_total_score]
    · simp only [safe_extract_total_score]
      split <;> split <;> omega

/-- Range of Python round(k/10) on a clamped total. -/
theorem pyRoundDiv10_range (k : ℤ) (h0 : 0 ≤ k) (h1 : k ≤ 100) :
    0 ≤ pyRoundDiv10 k ∧ pyRoundDiv10 k ≤ 10 := by
  unfold pyRoundDiv10
  dsimp only
  split
  · omega
  · split
    · omega
    · split <;> omega

/-- C1.  The claim reads the ACCEPT-iff rule into "the judge stage", but the
judge stage of judge_agent.py does not apply the numeric rule: its decision
is extracted from the LLM reply.  At the score vector (100,100,100,100,100,100)
the weighted total is 100 ≥ 70 and every category is ≥ 50, yet when the LLM
reply is "보류" the returned decision is 보류 (HOLD), not 투자 (ACCEPT) —
refuting the claimed iff. -/
theorem C1_counterexample :
    judge_total_score ⟨100, 100, 100, 100, 100, 100⟩ = 100 ∧
      judge_final_decision ⟨100, 100, 100, 100, 100, 100⟩ "보류" = "보류" ∧
      judge_final_decision ⟨100, 100, 100, 100, 100, 100⟩ "보류" ≠ "투자" := by
  refine ⟨?_, by decide, by decide⟩
  norm_num [judge_total_score, judgeWeightedSum, pyInt]

/-- C1 (amended).  In evaluation.py's judge stage the decision is 투자
(ACCEPT) iff the weighted total is ≥ 70 and every one of the five category
scores is ≥ 50, so a single category below 50 forces 보류 (HOLD); in the
judge_agent.py variant the decision is instead extracted from the LLM reply
text: it is 투자 iff the stripped reply contains "투자" and not "보류",
independently of the scores. -/
theorem C1_decision_rule :
    (∀ s : Scores5, evaluation_investment_decision s = "투자" ↔
      (70 ≤ evaluation_total_score s ∧ 50 ≤ s.technology ∧ 50 ≤ s.learning ∧
        50 ≤ s.market ∧ 50 ≤ s.competition ∧ 50 ≤ s.growth)) ∧
    (∀ s : Scores5, s.competition < 50 → evaluation_investment_decision s = "보류") ∧
    (∀ (s : Scores6) (t : String), judge_final_decision s t = "투자" ↔
      (pyIn "투자" (pyStrip t) = true ∧ pyIn "보류" (pyStrip t) = false)) := by
  refine ⟨?_, ?_, ?_⟩
  · intro s
    by_cases hcond : 70 ≤ evaluation_total_score s ∧ 50 ≤ s.technology ∧
        50 ≤ s.learning ∧ 50 ≤ s.market ∧ 50 ≤ s.competition ∧ 50 ≤ s.growth
    · rw [evaluation_investment_decision, if_pos hcond]
      exact iff_of_true rfl hcond
    · rw [evaluation_investment_decision, if_neg hcond]
      constructor
      · intro habs; exact absurd habs (by decide)
      · intro hc; exact absurd hc hcond
  · intro s hlt
    have hcond : ¬(70 ≤ evaluation_total_score s ∧ 50 ≤ s.technology ∧
        50 ≤ s.learning ∧ 50 ≤ s.market ∧ 50 ≤ s.competition ∧ 50 ≤ s.growth) := by
      rintro ⟨-, -, -, -, hcomp, -⟩; omega
    rw [evaluation_investment_decision, if_neg hcond]
  · intro s t
    simp only [judge_final_decision]
    by_cases hb : pyIn "투자" (pyStrip t) = true ∧ pyIn "보류" (pyStrip t) = false
    · have hcond : (pyIn "투자" (pyStrip t) && !(pyIn "보류" (pyStrip t))) = true := by
        simp [hb.1, hb.2]
      rw [if_pos hcond]
      exact iff_of_true rfl hb
    · have hcond : ¬((pyIn "투자" (pyStrip t) && !(pyIn "보류" (pyStrip t))) = true) := by
        simpa [Bool.and_eq_true, Bool.not_eq_true'] using hb
      rw [if_neg hcond]
      constructor
      · intro habs; exact absurd habs (by decide)
      · intro hc; exact absurd hc hb

/-- Witness for C1_decision_rule: the spec's veto scenario — weighted total
81 ≥ 70 but competition 30 < 50 gives 보류. -/
theorem C1_witness :
    (⟨90, 90, 90, 30, 90⟩ : Scores5).competition < 50 ∧
      evaluation_investment_decision ⟨90, 90, 90, 30, 90⟩ = "보류" :=
  ⟨by decide, C1_decision_rule.2.1 ⟨90, 90, 90, 30, 90⟩ (by decide)⟩

/-- C2.  The aggregate is computed with Python int(), which truncates, not
round(): at scores (53,50,50,50,50) the weighted sum is 50.75, the stored
total is 50, while round would give 51. -/
theorem C2_counterexample :
    evaluation_total_score ⟨53, 50, 50, 50, 50⟩ = 50 ∧
      round (evaluationWeightedSum ⟨53, 50, 50, 50, 50⟩) = 51 := by
  constructor
  · norm_num [evaluation_total_score, evaluationWeightedSum, pyInt]
  · norm_num [evaluationWeightedSum, round_eq]

/-- C2 (amended).  For a nonnegative weighted sum the stored aggregate is its
truncation int(Σ weight·score) — the floor, not round(·); the configured
weights of both judge variants sum to 1.0; and in the sequential
evaluation.py workflow the judge node is wired strictly after all five
scoring stages (entry technology → learning → market → competition → growth
→ judge → report), so the aggregate is only computed once every category
score is present. -/
theorem C2_aggregate_rule :
    (∀ s : Scores5, 0 ≤ evaluationWeightedSum s →
      ((evaluation_total_score s : ℚ) ≤ evaluationWeightedSum s ∧
        evaluationWeightedSum s < evaluation_total_score s + 1)) ∧
    evaluation_weights.sum = 1 ∧ judge_weights.sum = 1 ∧
    workflow_entry = "technology" ∧
    List.Chain' (fun a b => workflow_next a = some b)
      ["technology", "learning", "market", "competition", "growth", "judge", "report"] := by
  refine ⟨?_, by norm_num [evaluation_weights], by norm_num [judge_weights], rfl, ?_⟩
  · intro s hnn
    rw [evaluation_total_score, pyInt, if_neg (not_lt.mpr hnn)]
    constructor
    · exact Int.floor_le _
    · exact Int.lt_floor_add_one _
  · simp [List.chain'_cons, workflow_next]

/-- Witness for C2_aggregate_rule at the all-80 score vector. -/
theorem C2_witness :
    (0 : ℚ) ≤ evaluationWeightedSum ⟨80, 80, 80, 80, 80⟩ ∧
      ((evaluation_total_score ⟨80, 80, 80, 80, 80⟩ : ℚ) ≤
          evaluationWeightedSum ⟨80, 80, 80, 80, 80⟩ ∧
        evaluationWeightedSum ⟨80, 80, 80, 80, 80⟩ <
          evaluation_total_score ⟨80, 80, 80, 80, 80⟩ + 1) :=
  ⟨by norm_num [evaluationWeightedSum],
    C2_aggregate_rule.1 ⟨80, 80, 80, 80, 80⟩ (by norm_num [evaluationWeightedSum])⟩

/-- C8.  In judge_agent.py the decision is not a pure function of the
category scores: with the identical score vector (80,...,80), the LLM reply
"투자" yields decision 투자 while the reply "보류" yields 보류. -/
theorem C8_counterexample :
    judge_final_decision ⟨80, 80, 80, 80, 80, 80⟩ "투자" = "투자" ∧
      judge_final_decision ⟨80, 80, 80, 80, 80, 80⟩ "보류" = "보류" := by
  exact ⟨by decide, by decide⟩

/-- C8 (amended).  In evaluation.py the aggregate and the decision are pure
functions of the category scores — recomputing with the same scores and any
LLM rationale text gives the same total and the same decision, and the
decision always equals the numeric rule.  In judge_agent.py the total is a
pure function of the scores, but the decision is determined solely by the
reply text (the scores do not enter it), so identical scores can yield
different decisions. -/
theorem C8_determinism :
    (∀ (s : Scores5) (r1 r2 : String),
      (evaluation_comprehensive_judge_agent s r1).1 =
          (evaluation_comprehensive_judge_agent s r2).1 ∧
        (evaluation_comprehensive_judge_agent s r1).2.1 =
          (evaluation_comprehensive_judge_agent s r2).2.1) ∧
    (∀ (s : Scores5) (r : String),
      (evaluation_comprehensive_judge_agent s r).2.1 = evaluation_investment_decision s) ∧
    (∀ (s1 s2 : Scores6) (t : String), judge_final_decision s1 t = judge_final_decision s2 t) :=
  ⟨fun _ _ _ => ⟨rfl, rfl⟩, fun _ _ => rfl, fun _ _ _ => rfl⟩

/-- C10.  risk_agent always returns a risk_score in 0..10: the parsed total
is clamped into 0..100 and rescaled by Python round(score/10), any exception
yields the constant 3, and with judge_agent.py's risk weight 0.10 the risk
category contributes at most 1 point to the weighted total. -/
theorem C10_risk_range :
    (∀ (lr : Except String String) (parse : String → Except Unit (Option ℤ)),
      0 ≤ risk_agent lr parse ∧ risk_agent lr parse ≤ 10 ∧
        (risk_agent lr parse : ℚ) * judge_risk_weight ≤ 1) ∧
    (∀ (e : String) (parse : String → Except Unit (Option ℤ)),
      risk_agent (Except.error e) parse = 3) ∧
    judge_risk_weight = 1 / 10 := by
  have hw : judge_risk_weight = 1 / 10 := by norm_num [judge_risk_weight]
  refine ⟨?_, fun e parse => rfl, hw⟩
  intro lr parse
  have hrange : 0 ≤ risk_agent lr parse ∧ risk_agent lr parse ≤ 10 := by
    rcases lr with e | analysis
    · simp [risk_agent]
    · obtain ⟨h0, h1⟩ := safe_extract_range (parse analysis)
      exact pyRoundDiv10_range _ h0 h1
  refine ⟨hrange.1, hrange.2, ?_⟩
  rw [hw]
  have h10 : (risk_agent lr parse : ℚ) ≤ 10 := by exact_mod_cast hrange.2
  linarith

/-- C3.  In the ranked-retry graph of main.py, a `"reject"` decision at any
validation agent B..H routes control straight back to Select_Ranked_Startup
and no later validation agent is entered for that candidate; Report_Success
is reached from Agent_B_Validate exactly when the first seven decisions are
all `"continue"`, i.e. when all seven validation agents passed. -/
theorem C3_validation_chain :
    (∀ (v nxt : Node) (ds : List String), validationSuccessor v = some nxt →
      runChain v ("reject" :: ds) = Node.Select_Ranked_Startup ∧
        chainTrace v ("reject" :: ds) = [Node.Select_Ranked_Startup]) ∧
    (∀ ds : List String, runChain Node.Agent_B_Validate ds = Node.Report_Success ↔
      ∃ rest, ds = List.replicate 7 "continue" ++ rest) :=
  ⟨fun v nxt ds h => runChain_reject v nxt h ds, chainB_reaches_report⟩

/-- Witness for C3_validation_chain: a reject at Agent C goes back to the
selector; seven continues reach Report_Success. -/
theorem C3_witness :
    runChain Node.Agent_C_Validate ["reject"] = Node.Select_Ranked_Startup ∧
      runChain Node.Agent_B_Validate (List.replicate 7 "continue") = Node.Report_Success :=
  ⟨(C3_validation_chain.1 Node.Agent_C_Validate Node.Agent_D_Validate [] rfl).1,
    (C3_validation_chain.2 (List.replicate 7 "continue")).mpr ⟨[], by simp⟩⟩

/-- C4.  node_select_ranked_startup returns the first entry at or after the
cursor that carries no error flag and has a positive total_score, with the
cursor advanced to that entry's index plus one, skipping every flagged or
non-positive entry before it; when no such entry remains it returns None,
and router_after_select sends a None selection to END. -/
theorem C4_selector_skip_invalid :
    (∀ (ranked : List EvalEntry) (i : ℕ) (e : EvalEntry) (j : ℕ),
      node_select_ranked_startup ranked i = (some e, j) →
      ∃ k, i ≤ k ∧ k < ranked.length ∧ ranked[k]? = some e ∧ skipEntry e = false ∧
        j = k + 1 ∧ ∀ m, i ≤ m → m < k → ∀ x, ranked[m]? = some x → skipEntry x = true) ∧
    (∀ (ranked : List EvalEntry) (i j : ℕ),
      node_select_ranked_startup ranked i = (none, j) →
      ∀ m, i ≤ m → ∀ x, ranked[m]? = some x → skipEntry x = true) ∧
    router_after_select none = Node.END :=
  ⟨node_select_some_spec,
    fun ranked i j h => (node_select_none_spec ranked i j h).2, rfl⟩

/-- Witness for C4_selector_skip_invalid on the spec's example pool: from
cursor 2 only the errored entry remains, so selection is exhausted and the
remaining entry is indeed skippable. -/
theorem C4_witness :
    node_select_ranked_startup
        [⟨"C", 90, false⟩, ⟨"B", 85, false⟩, ⟨"A", 0, true⟩] 2 = (none, 3) ∧
      ∀ m, 2 ≤ m → ∀ x,
        ([⟨"C", 90, false⟩, ⟨"B", 85, false⟩, ⟨"A", 0, true⟩] :
            List EvalEntry)[m]? = some x → skipEntry x = true :=
  ⟨by decide,
    C4_selector_skip_invalid.2.1 [⟨"C", 90, false⟩, ⟨"B", 85, false⟩, ⟨"A", 0, true⟩]
      2 3 (by decide)⟩

/-- C5.  Every selection strictly advances the cursor (and so does every pass
that still has an entry to examine), the selected entry sits right before the
new cursor — so a rejected candidate is never re-selected and each pool entry
is handed to the validation chain at most once — the retry loop performs at
most `ranked.length` selections, and main.py invokes the graph with a hard
recursion_limit of 200. -/
theorem C5_selector_progress :
    (∀ (ranked : List EvalEntry) (i : ℕ) (e : EvalEntry) (j : ℕ),
      node_select_ranked_startup ranked i = (some e, j) →
      i < j ∧ j ≤ ranked.length ∧ ranked[j - 1]? = some e) ∧
    (∀ (ranked : List EvalEntry) (i : ℕ), i < ranked.length →
      i < (node_select_ranked_startup ranked i).2) ∧
    (∀ (ranked : List EvalEntry) (accept : EvalEntry → Bool) (i : ℕ),
      retrySelections ranked accept i ≤ ranked.length - i) ∧
    recursion_limit = 200 := by
  refine ⟨?_, node_select_advances,
    fun ranked accept i => retrySelections_le ranked accept i, rfl⟩
  intro ranked i e j h
  obtain ⟨k, hik, hk, hget, -, hj, -⟩ := node_select_some_spec ranked i e j h
  refine ⟨by omega, by omega, ?_⟩
  have hjk : j - 1 = k := by omega
  rw [hjk]
  exact hget

/-- Witness for C5_selector_progress: selecting from cursor 0 of the example
pool yields the top entry and advances the cursor to 1. -/
theorem C5_witness :
    node_select_ranked_startup
        [⟨"C", 90, false⟩, ⟨"B", 85, false⟩, ⟨"A", 0, true⟩] 0 =
        (some ⟨"C", 90, false⟩, 1) ∧
      (0 < 1 ∧
        1 ≤ ([⟨"C", 90, false⟩, ⟨"B", 85, false⟩, ⟨"A", 0, true⟩] :
            List EvalEntry).length ∧
        ([⟨"C", 90, false⟩, ⟨"B", 85, false⟩, ⟨"A", 0, true⟩] :
            List EvalEntry)[1 - 1]? = some ⟨"C", 90, false⟩) :=
  ⟨by decide,
    C5_selector_progress.1 [⟨"C", 90, false⟩, ⟨"B", 85, false⟩, ⟨"A", 0, true⟩]
      0 ⟨"C", 90, false⟩ 1 (by decide)⟩

/-- The retry loop of run_validation_agent yields `"continue"` exactly when
the first attempt that did not raise returns text normalizing to `"pass"`. -/
theorem validationAttempts_continue :
    ∀ l : List (Option String), validationAttempts l = "continue" ↔
      (l.findSome? id).map (fun c => pyLower (pyStrip c)) = some "pass"
  | [] => by
    simp only [validationAttempts, List.findSome?]
    constructor
    · intro h; exact absurd h (by decide)
    · intro h; simp at h
  | none :: rest => by
    rw [validationAttempts, validationAttempts_continue rest]
    simp [List.findSome?]
  | some c :: rest => by
    rw [validationAttempts]
    simp only [List.findSome?, id]
    by_cases hp : pyLower (pyStrip c) = "pass"
    · simp [hp]
    · by_cases hf : pyLower (pyStrip c) = "fail" <;> simp [hp, hf]

/-- C6.  run_validation_agent returns "continue" exactly when a candidate
record is present and the first collaborator attempt (of at most three) that
did not raise an exception produced a reply whose stripped, lowercased text
is exactly "pass"; in every other situation — any other reply text, all
three attempts raising, or a missing record — it returns "reject". -/
theorem C6_gate_conservative :
    ∀ (startup_details : Option EvalEntry) (replies : ℕ → Option String),
      run_validation_agent startup_details replies = "continue" ↔
        (startup_details.isSome = true ∧
          ([replies 0, replies 1, replies 2].findSome? id).map
            (fun c => pyLower (pyStrip c)) = some "pass") := by
  intro startup_details replies
  cases startup_details with
  | none =>
    have hr : run_validation_agent none replies = "reject" := rfl
    rw [hr]
    constructor
    · intro h; exact absurd h (by decide)
    · rintro ⟨hs, -⟩; simp at hs
  | some d =>
    have hrun : run_validation_agent (some d) replies =
        validationAttempts [replies 0, replies 1, replies 2] := rfl
    rw [hrun, validationAttempts_continue]
    simp

/-- C7.  The claim says every scoring stage catches collaborator errors and
substitutes a fallback score; but technology_agent (evaluation.py) wraps its
LLM call in no try/except, so a raised scoring-collaborator error propagates
out of the stage instead of being converted into a default score. -/
theorem C7_counterexample :
    technology_agent "Riiid" "ctx" (Except.error "APIConnectionError") (fun _ => 0) =
        Except.error "APIConnectionError" ∧
      (technology_agent "Riiid" "ctx" (Except.error "APIConnectionError")
          (fun _ => 0)).isOk = false :=
  ⟨rfl, rfl⟩

/-- C7 (amended).  Retrieval failures are absorbed: get_web_context turns
raised search calls into the placeholder string, and risk_agent catches any
scoring-collaborator error, returning the fallback score 3; but the scoring
stages of evaluation.py (technology_agent and its four siblings) do not
catch scoring-collaborator errors — such an error propagates out of the
stage. -/
theorem C7_error_handling :
    get_web_context (Except.error ()) (Except.error ()) = "검색 결과 없음" ∧
    (∀ (e : String) (parse : String → Except Unit (Option ℤ)),
      risk_agent (Except.error e) parse = 3) ∧
    (∀ (e name ctx : String) (extract : String → ℤ),
      technology_agent name ctx (Except.error e) extract = Except.error e) :=
  ⟨rfl, fun _ _ => rfl, fun _ _ _ _ => rfl⟩

/-- The ranking comparison is transitive. -/
theorem rankLE_trans : ∀ a b c : EvalEntry, rankLE a b → rankLE b c → rankLE a c := by
  intro a b c hab hbc
  simp only [rankLE, decide_eq_true_eq] at hab hbc ⊢
  omega

/-- The ranking comparison is total. -/
theorem rankLE_total : ∀ a b : EvalEntry, rankLE a b || rankLE b a := by
  intro a b
  simp only [rankLE, Bool.or_eq_true, decide_eq_true_eq]
  omega

/-- C9.  The ranked CSV of select_and_evaluate.py does not contain one row
per evaluated candidate: the errored candidate "A" (kept in the pool with
total_score 0 and the error flag) is filtered out of the CSV rows. -/
theorem C9_counterexample :
    (([("B", some [1, 1, 1, 1, 1, 0]), ("A", none)] :
        List (String × Option (List ℤ))).map evalRecordOf).length = 2 ∧
      se_ranked_data (sortRankedDesc
        (([("B", some [1, 1, 1, 1, 1, 0]), ("A", none)] :
          List (String × Option (List ℤ))).map evalRecordOf)) = [("B", 5)] := by
  constructor
  · rfl
  · unfold sortRankedDesc
    rw [List.mergeSort_of_sorted (by decide)]
    decide

/-- C9 (amended).  The pool is stable-sorted by total_score descending (ties
keep insertion order), entries are neither added nor deleted by the sort,
failed candidates stay in the pool as (name, 0, error); main.py's ranked CSV
has one row per evaluated candidate including errored ones, while
select_and_evaluate.py's ranked CSV keeps only the error-free candidates. -/
theorem C9_ranking :
    ∀ outcomes : List (String × Option (List ℤ)),
      (sortRankedDesc (outcomes.map evalRecordOf)).Pairwise
          (fun a b => b.total_score ≤ a.total_score) ∧
      (sortRankedDesc (outcomes.map evalRecordOf)).Perm (outcomes.map evalRecordOf) ∧
      (∀ a b : EvalEntry, rankLE a b = true →
        List.Sublist [a, b] (outcomes.map evalRecordOf) →
        List.Sublist [a, b] (sortRankedDesc (outcomes.map evalRecordOf))) ∧
      (∀ name : String, (name, (none : Option (List ℤ))) ∈ outcomes →
        (⟨name, 0, true⟩ : EvalEntry) ∈ sortRankedDesc (outcomes.map evalRecordOf)) ∧
      (main_csv_rows (sortRankedDesc (outcomes.map evalRecordOf))).length =
        outcomes.length ∧
      (se_ranked_data (sortRankedDesc (outcomes.map evalRecordOf))).length =
        ((outcomes.map evalRecordOf).filter (fun x => !x.error)).length := by
  intro outcomes
  refine ⟨?_, ?_, ?_, ?_, ?_, ?_⟩
  · have h := List.sorted_mergeSort rankLE_trans rankLE_total (outcomes.map evalRecordOf)
    refine h.imp ?_
    intro a b hab
    simpa [rankLE] using hab
  · exact List.mergeSort_perm (outcomes.map evalRecordOf) rankLE
  · intro a b hab hsub
    exact List.pair_sublist_mergeSort rankLE_trans rankLE_total hab hsub
  · intro name hmem
    have : (⟨name, 0, true⟩ : EvalEntry) ∈ outcomes.map evalRecordOf := by
      exact List.mem_map.mpr ⟨(name, none), hmem, rfl⟩
    simpa [sortRankedDesc] using this
  · simp [main_csv_rows, sortRankedDesc]
  · have hperm : List.Perm
        ((sortRankedDesc (outcomes.map evalRecordOf)).filter (fun x => !x.error))
        ((outcomes.map evalRecordOf).filter (fun x => !x.error)) :=
      (List.mergeSort_perm (outcomes.map evalRecordOf) rankLE).filter _
    simp only [se_ranked_data, List.length_map]
    exact hperm.length_eq

/-- Witness for C9_ranking: an errored candidate stays in the sorted pool. -/
theorem C9_witness :
    (("X", (none : Option (List ℤ))) ∈
        ([("X", none), ("Y", some [2, 2, 2, 2, 2, 2])] :
          List (String × Option (List ℤ)))) ∧
      (⟨"X", 0, true⟩ : EvalEntry) ∈ sortRankedDesc
        (([("X", none), ("Y", some [2, 2, 2, 2, 2, 2])] :
          List (String × Option (List ℤ))).map evalRecordOf) :=
  ⟨by decide,
    (C9_ranking [("X", none), ("Y", some [2, 2, 2, 2, 2, 2])]).2.2.2.1 "X" (by decide)⟩
